import Mathlib

/-!
Verification of `src/gdpc/geometry.py` (the shape-placement layer of gdpc).

The layer itself is embedded faithfully from the source.  Its collaborators
(`vector_tools.Box`/`Rect`/`line3D`/`lineSequence3D`/`cylinder`/`fittingCylinder`,
`block.Block`, `interface.Editor`) are part of the repository but their source
is not available here; they are modelled from the specification, as marked in
their doc comments.  Placement is modelled as a trace of collaborator calls:
each geometry function returns the list of `placeBlock` / `placeBlockGlobal`
calls it performs, in order, with the exact arguments it passes.
-/

/-- 3D integer vector (glm `ivec3`): an immutable coordinate value. -/
structure ivec3 where
  x : Int
  y : Int
  z : Int
deriving DecidableEq

/-- 2D integer vector (glm `ivec2`). -/
structure ivec2 where
  x : Int
  y : Int
deriving DecidableEq

instance : Add ivec3 := ⟨fun a b => ⟨a.x + b.x, a.y + b.y, a.z + b.z⟩⟩

instance : Sub ivec3 := ⟨fun a b => ⟨a.x - b.x, a.y - b.y, a.z - b.z⟩⟩

instance : Neg ivec3 := ⟨fun a => ⟨-a.x, -a.y, -a.z⟩⟩

/-- Python `box.end - 1`: glm broadcasts a scalar over the components. -/
instance : HSub ivec3 Int ivec3 := ⟨fun a s => ⟨a.x - s, a.y - s, a.z - s⟩⟩

theorem ivec3.add_def (a b : ivec3) : a + b = ⟨a.x + b.x, a.y + b.y, a.z + b.z⟩ := rfl

theorem ivec3.sub_scalar_def (a : ivec3) (s : Int) : a - s = ⟨a.x - s, a.y - s, a.z - s⟩ := rfl

/-- Python `sum(pos)` over a glm `ivec3` iterates the three components. -/
def ivec3.sum (v : ivec3) : Int := v.x + v.y + v.z

/-- Python `pos[i]` on a glm `ivec3`: component access, raising (here: `none`)
for an index out of range.  This is collaborator behaviour (glm), not part of
the geometry layer. -/
def ivec3.get (v : ivec3) : Nat → Option Int
  | 0 => some v.x
  | 1 => some v.y
  | 2 => some v.z
  | _ => none

/-- Unit vector along axis 0, 1 or 2. -/
def unitVec : Nat → ivec3
  | 0 => ⟨1, 0, 0⟩
  | 1 => ⟨0, 1, 0⟩
  | _ => ⟨0, 0, 1⟩

/-- Modelled from the spec: a `Block` is "a value representing a placeable unit
(identifier plus orientation-dependent state)"; the orientation state is a
quarter-turn rotation and a per-axis flip. -/
structure Block where
  id : String
  rotation : Nat
  flip : Bool × Bool × Bool
deriving DecidableEq

/-- Modelled from the spec: `Block.transformed(rotation, flip)` returns "a
re-oriented copy" of the block. -/
def Block.transformed (b : Block) (rotation : Nat) (flip : Bool × Bool × Bool) : Block :=
  ⟨b.id, (b.rotation + rotation) % 4, (xor b.flip.1 flip.1, xor b.flip.2.1 flip.2.1, xor b.flip.2.2 flip.2.2)⟩

/-- The optional `replace` filter: a single block id or a list of ids
(Python `Union[str, List[str]]`). -/
inductive Replace where
  | one (s : String)
  | many (l : List String)
deriving DecidableEq

/-- Flip a vector componentwise. -/
def flipVec (f : Bool × Bool × Bool) (v : ivec3) : ivec3 :=
  ⟨if f.1 then -v.x else v.x, if f.2.1 then -v.y else v.y, if f.2.2 then -v.z else v.z⟩

/-- Quarter-turn rotation around the y axis, `k` times. -/
def rotateY (k : Nat) (v : ivec3) : ivec3 :=
  match k % 4 with
  | 0 => v
  | 1 => ⟨-v.z, v.y, v.x⟩
  | 2 => ⟨-v.x, v.y, -v.z⟩
  | _ => ⟨v.z, v.y, -v.x⟩

/-- Modelled from the spec: the editor's `Transform` is an "affine map
(rotation + flip + translation)" applied to points with `transform * point`. -/
structure Transform where
  translation : ivec3
  rotation : Nat
  flip : Bool × Bool × Bool

/-- Application of a transform to a point. -/
def Transform.apply (t : Transform) (v : ivec3) : ivec3 :=
  t.translation + rotateY t.rotation (flipVec t.flip v)

instance : HMul Transform ivec3 ivec3 := ⟨Transform.apply⟩

theorem Transform.mul_def (t : Transform) (v : ivec3) : t * v = t.apply v := rfl

/-- Modelled from the spec: the `Editor` collaborator "exposes a current affine
transform"; its placement operations are recorded in the trace rather than
performed. -/
structure Editor where
  transform : Transform

/-- The position argument of a placement call: the Python editor accepts either
a single point or an iterable of points. -/
inductive PlacePos where
  | single (p : ivec3)
  | sequence (ps : List ivec3)
deriving DecidableEq

/-- One placement call made to the editor collaborator.  `placeBlockGlobal` is
the pre-transformed global-space operation; `placeBlock` is the operation that
itself applies the editor's current transform per call. -/
inductive Call where
  | placeBlockGlobal (pos : PlacePos) (block : Block) (replace : Option Replace)
  | placeBlock (pos : PlacePos) (block : Block) (replace : Option Replace)
deriving DecidableEq

/-- The points a call asks the editor to write. -/
def Call.points : Call → List ivec3
  | .placeBlockGlobal (.single p) _ _ => [p]
  | .placeBlockGlobal (.sequence ps) _ _ => ps
  | .placeBlock (.single p) _ _ => [p]
  | .placeBlock (.sequence ps) _ _ => ps

/-- The block argument a call passes to the editor. -/
def Call.block : Call → Block
  | .placeBlockGlobal _ b _ => b
  | .placeBlock _ b _ => b

/-- Modelled from the spec: `placeBlockGlobal` writes its points as given,
while `placeBlock` "itself applies the current transform per call".  These are
the world positions the editor actually writes for a call. -/
def Call.effectivePoints (t : Transform) : Call → List ivec3
  | .placeBlockGlobal (.single p) _ _ => [p]
  | .placeBlockGlobal (.sequence ps) _ _ => ps
  | .placeBlock (.single p) _ _ => [t.apply p]
  | .placeBlock (.sequence ps) _ _ => ps.map t.apply

/-- Translate every point of a call by `t` (used to compare local patterns). -/
def Call.translate (t : ivec3) : Call → Call
  | .placeBlockGlobal (.single p) b r => .placeBlockGlobal (.single (p + t)) b r
  | .placeBlockGlobal (.sequence ps) b r => .placeBlockGlobal (.sequence (ps.map (· + t))) b r
  | .placeBlock (.single p) b r => .placeBlock (.single (p + t)) b r
  | .placeBlock (.sequence ps) b r => .placeBlock (.sequence (ps.map (· + t))) b r

/-- Modelled from the spec: `Box` is an "axial-aligned integer region defined
by offset + size". -/
structure Box where
  offset : ivec3
  size : ivec3
deriving DecidableEq

/-- gdpc `Box.begin`: the offset. -/
def Box.begin (b : Box) : ivec3 := b.offset

/-- gdpc `Box.end`: `offset + size` (named `end'` because `end` is reserved). -/
def Box.end' (b : Box) : ivec3 := b.offset + b.size

/-- Modelled from the spec: `Box.between(a, b)` is the "normalizing
constructor" for the inclusive box spanning two corners in any order. -/
def Box.between (a b : ivec3) : Box :=
  ⟨⟨min a.x b.x, min a.y b.y, min a.z b.z⟩,
   ⟨(a.x - b.x).natAbs + 1, (a.y - b.y).natAbs + 1, (a.z - b.z).natAbs + 1⟩⟩

/-- Modelled from the spec: `Box.inner` enumerates "all interior points" of the
box (empty when a size component is not positive). -/
def Box.inner (b : Box) : List ivec3 :=
  (List.range b.size.x.toNat).flatMap fun i =>
    (List.range b.size.y.toNat).flatMap fun j =>
      (List.range b.size.z.toNat).map fun k =>
        ⟨b.offset.x + i, b.offset.y + j, b.offset.z + k⟩

/-- Modelled from the spec: `Box.shell` is the "hollow box boundary" (thickness
1 surface) of the box. -/
def Box.shell (b : Box) : List ivec3 :=
  b.inner.filter fun p =>
    p.x == b.offset.x || p.x == b.offset.x + b.size.x - 1 ||
    p.y == b.offset.y || p.y == b.offset.y + b.size.y - 1 ||
    p.z == b.offset.z || p.z == b.offset.z + b.size.z - 1

/-- Counts in how many axes a point is on the box boundary. -/
def Box.extremeCount (b : Box) (p : ivec3) : Nat :=
  (if p.x == b.offset.x || p.x == b.offset.x + b.size.x - 1 then 1 else 0) +
  (if p.y == b.offset.y || p.y == b.offset.y + b.size.y - 1 then 1 else 0) +
  (if p.z == b.offset.z || p.z == b.offset.z + b.size.z - 1 then 1 else 0)

/-- Modelled from the spec: `Box.wireframe` is the point-set of the box's
"edges only" (points extreme in at least two axes). -/
def Box.wireframe (b : Box) : List ivec3 :=
  b.inner.filter fun p => 2 ≤ b.extremeCount p

/-- Modelled from the spec: `Rect` is the "2D analog of Box". -/
structure Rect where
  offset : ivec2
  size : ivec2
deriving DecidableEq

/-- Modelled from the spec: `Rect.toBox(height, thickness)` converts the rect
to a horizontal-plane box at the given height with the given thickness. -/
def Rect.toBox (r : Rect) (y ySize : Int) : Box :=
  ⟨⟨r.offset.x, y, r.offset.y⟩, ⟨r.size.x, ySize, r.size.y⟩⟩

/-- Rounded division `a / b` (to nearest, b positive), used by the modelled
line rasterizer. -/
def roundDiv (a : Int) (b : Nat) : Int := (2 * a + b) / (2 * b)

/-- Modelled from the spec: the 3D segment rasterization underlying `line3D`:
interpolation over the dominant-axis step count, inclusive of both endpoints. -/
def segPoints (f l : ivec3) : List ivec3 :=
  let d := l - f
  let n := max (max d.x.natAbs d.y.natAbs) d.z.natAbs
  if n = 0 then [f]
  else (List.range (n + 1)).map fun t =>
    ⟨f.x + roundDiv (t * d.x) n, f.y + roundDiv (t * d.y) n, f.z + roundDiv (t * d.z) n⟩

/-- Offsets of the cube of side `w` used to thicken a line. -/
def thickOffsets (w : Int) : List ivec3 :=
  (List.range w.toNat).flatMap fun i =>
    (List.range w.toNat).flatMap fun j =>
      (List.range w.toNat).map fun k => ⟨i, j, k⟩

/-- Modelled from the spec: `line3D(a, b, width)` is the "line-rasterization
collaborator" producing a possibly thick straight line of points from `a` to
`b` inclusive; widths beyond 1 dilate each rasterized point. -/
def line3D (f l : ivec3) (width : Int) : List ivec3 :=
  if width ≤ 1 then segPoints f l
  else (segPoints f l).flatMap fun p => (thickOffsets width).map fun o => p + o

/-- Modelled from the spec: `lineSequence3D(points, closed)` places "lines that
run from point to point"; "if closed, an implicit segment connects the last
point back to the first" (the closing segment needs at least two points). -/
def lineSequence3D (points : List ivec3) (closed : Bool) : List ivec3 :=
  let segs := (points.zip points.tail).flatMap fun ab => line3D ab.1 ab.2 1
  if closed then
    match points with
    | [] => segs
    | [_] => segs
    | p :: _ :: _ => segs ++ line3D ((p :: points.tail).getLast (by simp)) p 1
  else segs

/-- The `diameters` argument of `cylinder`: Python `Union[ivec2, int]`. -/
inductive Diameters where
  | single (d : Int)
  | pair (d : ivec2)
deriving DecidableEq

/-- Membership test for the modelled filled fitting ellipse on an `sx × sz`
cell grid: the cell-centre ellipse inequality, together with the four
axis-extreme cells, which the midpoint-style rasterization always contains (so
that the ellipse exactly fills its bounding rectangle, as the spec requires of
`fittingCylinder`). -/
def inFittingEllipse (sx sz i j : Nat) : Bool :=
  let di : Int := 2 * i + 1 - sx
  let dj : Int := 2 * j + 1 - sz
  (di ^ 2 * (sz : Int) ^ 2 + dj ^ 2 * (sx : Int) ^ 2 ≤ (sx : Int) ^ 2 * (sz : Int) ^ 2) ||
  ((i == 0 || i == sx - 1) && j == (sz - 1) / 2) ||
  ((j == 0 || j == sz - 1) && i == (sx - 1) / 2)

/-- Modelled from the spec: the filled ellipse inscribed in an `sx × sz`
rectangle (local 0-based cells). -/
def fittingEllipse (sx sz : Nat) : List (Nat × Nat) :=
  (List.range sx).flatMap fun i =>
    (List.range sz).filterMap fun j =>
      if inFittingEllipse sx sz i j then some (i, j) else none

/-- Modelled from the spec: the outline (thickness-1 boundary) of the filled
fitting ellipse; cells of the ellipse with a neighbour outside it.  It keeps
the four axis-extreme cells. -/
def ellipseOutline (sx sz : Nat) : List (Nat × Nat) :=
  (fittingEllipse sx sz).filter fun ij =>
    ij.1 == 0 || ij.2 == 0 || ij.1 + 1 == sx || ij.2 + 1 == sz ||
    !(inFittingEllipse sx sz (ij.1 - 1) ij.2) || !(inFittingEllipse sx sz (ij.1 + 1) ij.2) ||
    !(inFittingEllipse sx sz ij.1 (ij.2 - 1)) || !(inFittingEllipse sx sz ij.1 (ij.2 + 1))

/-- One perpendicular-plane layer of a cylinder: the outline for a tube, the
outline for the interior layers of a hollow cylinder, the filled ellipse
otherwise. -/
def cylinderLayer (sx sz : Nat) (tube hollow : Bool) (t len : Nat) : List (Nat × Nat) :=
  if tube then ellipseOutline sx sz
  else if hollow && decide (0 < t) && decide (t + 1 < len) then ellipseOutline sx sz
  else fittingEllipse sx sz

/-- Place a layer coordinate `t` and in-layer coordinates `i, j` on the world
axes for extrusion axis 0, 1 or 2. -/
def mkAxisPoint (axis : Nat) (t i j : Int) : ivec3 :=
  match axis with
  | 0 => ⟨t, i, j⟩
  | 1 => ⟨i, t, j⟩
  | _ => ⟨i, j, t⟩

/-- The box size component along the extrusion axis. -/
def axisSize (axis : Nat) (s : ivec3) : Int :=
  match axis with
  | 0 => s.x
  | 1 => s.y
  | _ => s.z

/-- The box size components of the plane perpendicular to the extrusion axis,
in the order used by `mkAxisPoint`. -/
def perpSizes (axis : Nat) (s : ivec3) : Int × Int :=
  match axis with
  | 0 => (s.y, s.z)
  | 1 => (s.x, s.z)
  | _ => (s.x, s.y)

/-- Modelled from the spec: `fittingCylinder(corner1, corner2, axis, tube,
hollow)` "computes a cylinder that exactly fills the bounding box between two
corners (derives center/diameters/length from the box)"; an invalid axis is
collaborator-rejected (modelled as the empty point-set). -/
def fittingCylinder (c1 c2 : ivec3) (axis : Nat) (tube hollow : Bool) : List ivec3 :=
  if axis < 3 then
    let box := Box.between c1 c2
    let len := (axisSize axis box.size).toNat
    let s1 := (perpSizes axis box.size).1.toNat
    let s2 := (perpSizes axis box.size).2.toNat
    (List.range len).flatMap fun t =>
      (cylinderLayer s1 s2 tube hollow t len).map fun ij =>
        box.offset + mkAxisPoint axis t ij.1 ij.2
  else []

/-- Modelled from the spec: `cylinder(baseCenter, diameters, length, axis,
tube, hollow)` produces a cylindrical point-set centered at `baseCenter`, with
independent diameters per perpendicular plane axis, extruded along `axis` for
`length` units. -/
def cylinder (baseCenter : ivec3) (diameters : Diameters) (length : Int) (axis : Nat) (tube hollow : Bool) : List ivec3 :=
  if axis < 3 then
    let d := match diameters with
      | .single d => (d, d)
      | .pair v => (v.x, v.y)
    let len := length.toNat
    (List.range len).flatMap fun t =>
      (cylinderLayer d.1.toNat d.2.toNat tube hollow t len).map fun ij =>
        baseCenter + mkAxisPoint axis t ((ij.1 : Int) - (d.1 - 1) / 2) ((ij.2 : Int) - (d.2 - 1) / 2)
  else []

/-- The tight bounding box of a list of points, when the list is nonempty. -/
def boundingBox (ps : List ivec3) : Option Box :=
  match (ps.map ivec3.x).min?, (ps.map ivec3.y).min?, (ps.map ivec3.z).min?,
        (ps.map ivec3.x).max?, (ps.map ivec3.y).max?, (ps.map ivec3.z).max? with
  | some ax, some ay, some az, some bx, some bY, some bz =>
      some ⟨⟨ax, ay, az⟩, ⟨bx - ax + 1, bY - ay + 1, bz - az + 1⟩⟩
  | _, _, _, _, _, _ => none

/-! ## The geometry layer, embedded from `src/gdpc/geometry.py` -/

/-- `geometry.placeCuboid`: transforms the two corners and the block, then one
`placeBlockGlobal` call with the inclusive box interior. -/
def placeCuboid (e : Editor) (first last : ivec3) (block : Block) (replace : Option Replace) : List Call :=
  let first := e.transform * first
  let last := e.transform * last
  let block := block.transformed e.transform.rotation e.transform.flip
  [.placeBlockGlobal (.sequence (Box.between first last).inner) block replace]

/-- `geometry.placeCuboidHollow`. -/
def placeCuboidHollow (e : Editor) (first last : ivec3) (block : Block) (replace : Option Replace) : List Call :=
  let first := e.transform * first
  let last := e.transform * last
  let block := block.transformed e.transform.rotation e.transform.flip
  [.placeBlockGlobal (.sequence (Box.between first last).shell) block replace]

/-- `geometry.placeCuboidWireframe`. -/
def placeCuboidWireframe (e : Editor) (first last : ivec3) (block : Block) (replace : Option Replace) : List Call :=
  let first := e.transform * first
  let last := e.transform * last
  let block := block.transformed e.transform.rotation e.transform.flip
  [.placeBlockGlobal (.sequence (Box.between first last).wireframe) block replace]

/-- `geometry.placeBox`: `if (box.size.x == 0 or box.size.y == 0 or
box.size.z == 0): return`, else delegate to `placeCuboid`. -/
def placeBox (e : Editor) (box : Box) (block : Block) (replace : Option Replace) : List Call :=
  if box.size.x = 0 ∨ box.size.y = 0 ∨ box.size.z = 0 then []
  else placeCuboid e box.begin (box.end' - (1 : Int)) block replace

/-- `geometry.placeBoxHollow`. -/
def placeBoxHollow (e : Editor) (box : Box) (block : Block) (replace : Option Replace) : List Call :=
  if box.size.x = 0 ∨ box.size.y = 0 ∨ box.size.z = 0 then []
  else placeCuboidHollow e box.begin (box.end' - (1 : Int)) block replace

/-- `geometry.placeBoxWireframe`. -/
def placeBoxWireframe (e : Editor) (box : Box) (block : Block) (replace : Option Replace) : List Call :=
  if box.size.x = 0 ∨ box.size.y = 0 ∨ box.size.z = 0 then []
  else placeCuboidWireframe e box.begin (box.end' - (1 : Int)) block replace

/-- `geometry.placeRect`. -/
def placeRect (e : Editor) (rect : Rect) (y : Int) (block : Block) (replace : Option Replace) : List Call :=
  placeBox e (rect.toBox y 1) block replace

/-- `geometry.placeRectOutline`. -/
def placeRectOutline (e : Editor) (rect : Rect) (y : Int) (block : Block) (replace : Option Replace) : List Call :=
  placeBoxWireframe e (rect.toBox y 1) block replace

/-- `geometry.placeCheckeredCuboid`. -/
def placeCheckeredBox (e : Editor) (box : Box) (block1 block2 : Block) (replace : Option Replace) : List Call :=
  (Box.mk ⟨0, 0, 0⟩ box.size).inner.map fun pos =>
    .placeBlock (.single (box.offset + pos)) (if pos.sum % 2 = 0 then block1 else block2) replace

/-- `geometry.placeCheckeredCuboid` delegates to `placeCheckeredBox` over the
normalized box. -/
def placeCheckeredCuboid (e : Editor) (first last : ivec3) (block1 block2 : Block) (replace : Option Replace) : List Call :=
  placeCheckeredBox e (Box.between first last) block1 block2 replace

/-- `geometry.placeStripedBox`: per-position placement, selecting by the parity
of `pos[stripeAxis]`; the component access is the fallible glm collaborator
operation, so the result is `none` when it is ever reached with an invalid
axis (Python: an uncaught `IndexError`). -/
def placeStripedBox (e : Editor) (box : Box) (stripeAxis : Nat) (block1 block2 : Block) (replace : Option Replace) : Option (List Call) :=
  (Box.mk ⟨0, 0, 0⟩ box.size).inner.mapM fun pos =>
    (pos.get stripeAxis).map fun c =>
      Call.placeBlock (.single (box.offset + pos)) (if c % 2 = 0 then block1 else block2) replace

/-- `geometry.placeStripedCuboid`. -/
def placeStripedCuboid (e : Editor) (first last : ivec3) (stripeAxis : Nat) (block1 block2 : Block) (replace : Option Replace) : Option (List Call) :=
  placeStripedBox e (Box.between first last) stripeAxis block1 block2 replace

/-- `geometry.placeLine`: transforms the two endpoints and the block, then one
`placeBlockGlobal` call with the rasterized line. -/
def placeLine (e : Editor) (first last : ivec3) (block : Block) (width : Int) (replace : Option Replace) : List Call :=
  let first := e.transform * first
  let last := e.transform * last
  let block := block.transformed e.transform.rotation e.transform.flip
  [.placeBlockGlobal (.sequence (line3D first last width)) block replace]

/-- `geometry.placeLineSequence`: a single transforming `placeBlock` call with
the untransformed point sequence and the unmodified block. -/
def placeLineSequence (e : Editor) (points : List ivec3) (block : Block) (closed : Bool) (replace : Option Replace) : List Call :=
  [.placeBlock (.sequence (lineSequence3D points closed)) block replace]

/-- `geometry.placeCylinder`: a single transforming `placeBlock` call with the
untransformed cylinder point-set and the unmodified block. -/
def placeCylinder (e : Editor) (baseCenter : ivec3) (diameters : Diameters) (length : Int) (block : Block) (axis : Nat) (tube hollow : Bool) (replace : Option Replace) : List Call :=
  [.placeBlock (.sequence (cylinder baseCenter diameters length axis tube hollow)) block replace]

/-- `geometry.placeFittingCylinder`: transforms the two corners and the block,
then one `placeBlockGlobal` call with the fitting cylinder point-set. -/
def placeFittingCylinder (e : Editor) (corner1 corner2 : ivec3) (block : Block) (axis : Nat) (tube hollow : Bool) (replace : Option Replace) : List Call :=
  let corner1 := e.transform * corner1
  let corner2 := e.transform * corner2
  let block := block.transformed e.transform.rotation e.transform.flip
  [.placeBlockGlobal (.sequence (fittingCylinder corner1 corner2 axis tube hollow)) block replace]

/-! ## Helper lemmas -/

theorem ivec3.add_left_cancel {a b c : ivec3} (h : a + b = a + c) : b = c := by
  obtain ⟨bx, bY, bz⟩ := b
  obtain ⟨cx, cy, cz⟩ := c
  simp only [ivec3.add_def, ivec3.mk.injEq] at h ⊢
  omega

theorem ivec3.add_right_comm (a b c : ivec3) : a + b + c = a + c + b := by
  simp only [ivec3.add_def, ivec3.mk.injEq]
  omega

theorem mem_inner_iff (b : Box) (p : ivec3) :
    p ∈ b.inner ↔
      b.offset.x ≤ p.x ∧ p.x < b.offset.x + b.size.x ∧
      b.offset.y ≤ p.y ∧ p.y < b.offset.y + b.size.y ∧
      b.offset.z ≤ p.z ∧ p.z < b.offset.z + b.size.z := by
  obtain ⟨px, py, pz⟩ := p
  simp only [Box.inner, List.mem_flatMap, List.mem_map, List.mem_range, bind_pure_comp,
    List.map_eq_map, ivec3.mk.injEq]
  constructor
  · rintro ⟨i, hi, j, hj, k, ⟨k', hk', rfl⟩, hx, hy, hz⟩
    omega
  · rintro ⟨h1, h2, h3, h4, h5, h6⟩
    refine ⟨(px - b.offset.x).toNat, by omega, (py - b.offset.y).toNat, by omega,
            ((pz - b.offset.z) : Int), ⟨(pz - b.offset.z).toNat, by omega, by omega⟩,
            by omega, by omega, by omega⟩

theorem mem_between_inner_iff (a b p : ivec3) :
    p ∈ (Box.between a b).inner ↔
      min a.x b.x ≤ p.x ∧ p.x ≤ max a.x b.x ∧
      min a.y b.y ≤ p.y ∧ p.y ≤ max a.y b.y ∧
      min a.z b.z ≤ p.z ∧ p.z ≤ max a.z b.z := by
  rw [mem_inner_iff]
  simp only [Box.between]
  omega

theorem Box.between_comm (a b : ivec3) : Box.between a b = Box.between b a := by
  simp only [Box.between, Box.mk.injEq, ivec3.mk.injEq]
  omega

/-! ## Claim theorems -/

/-- C1: for every box in which at least one component of `box.size` is zero,
`placeBox`, `placeBoxHollow` and `placeBoxWireframe` make no placement call at
all (empty trace), and the guard fires before the cuboid delegation: the
delegated cuboid call would itself always perform a placement call. -/
theorem zero_size_box_noop (e : Editor) (box : Box) (blk : Block) (r : Option Replace)
    (h : box.size.x = 0 ∨ box.size.y = 0 ∨ box.size.z = 0) :
    placeBox e box blk r = [] ∧
    placeBoxHollow e box blk r = [] ∧
    placeBoxWireframe e box blk r = [] ∧
    placeCuboid e box.begin (box.end' - (1 : Int)) blk r ≠ [] ∧
    placeCuboidHollow e box.begin (box.end' - (1 : Int)) blk r ≠ [] ∧
    placeCuboidWireframe e box.begin (box.end' - (1 : Int)) blk r ≠ [] := by
  unfold placeBox placeBoxHollow placeBoxWireframe
  rw [if_pos h, if_pos h, if_pos h]
  exact ⟨rfl, rfl, rfl, by simp [placeCuboid], by simp [placeCuboidHollow],
         by simp [placeCuboidWireframe]⟩

/-- Witness for C1 at a concrete zero-size box. -/
theorem zero_size_box_noop_witness :
    ((Box.mk ⟨1, 2, 3⟩ ⟨0, 2, 3⟩).size.x = 0 ∨ (Box.mk ⟨1, 2, 3⟩ ⟨0, 2, 3⟩).size.y = 0 ∨
      (Box.mk ⟨1, 2, 3⟩ ⟨0, 2, 3⟩).size.z = 0) ∧
    placeBox ⟨⟨⟨0, 0, 0⟩, 0, (false, false, false)⟩⟩ (Box.mk ⟨1, 2, 3⟩ ⟨0, 2, 3⟩)
      ⟨"minecraft:stone", 0, (false, false, false)⟩ none = [] ∧
    placeBoxHollow ⟨⟨⟨0, 0, 0⟩, 0, (false, false, false)⟩⟩ (Box.mk ⟨1, 2, 3⟩ ⟨0, 2, 3⟩)
      ⟨"minecraft:stone", 0, (false, false, false)⟩ none = [] ∧
    placeBoxWireframe ⟨⟨⟨0, 0, 0⟩, 0, (false, false, false)⟩⟩ (Box.mk ⟨1, 2, 3⟩ ⟨0, 2, 3⟩)
      ⟨"minecraft:stone", 0, (false, false, false)⟩ none = [] := by
  have h := zero_size_box_noop ⟨⟨⟨0, 0, 0⟩, 0, (false, false, false)⟩⟩ (Box.mk ⟨1, 2, 3⟩ ⟨0, 2, 3⟩)
    ⟨"minecraft:stone", 0, (false, false, false)⟩ none (Or.inl rfl)
  exact ⟨Or.inl rfl, h.1, h.2.1, h.2.2.1⟩

/-- C9: when no size component is zero but some component is negative, the
box wrappers do not take the no-op branch: they delegate to the corresponding
cuboid function with corners `box.begin` and `box.end - 1`, and the resulting
trace is nonempty. -/
theorem negative_size_box_delegates (e : Editor) (box : Box) (blk : Block) (r : Option Replace)
    (hx : box.size.x ≠ 0) (hy : box.size.y ≠ 0) (hz : box.size.z ≠ 0)
    (hneg : box.size.x < 0 ∨ box.size.y < 0 ∨ box.size.z < 0) :
    placeBox e box blk r = placeCuboid e box.begin (box.end' - (1 : Int)) blk r ∧
    placeBoxHollow e box blk r = placeCuboidHollow e box.begin (box.end' - (1 : Int)) blk r ∧
    placeBoxWireframe e box blk r = placeCuboidWireframe e box.begin (box.end' - (1 : Int)) blk r ∧
    placeBox e box blk r ≠ [] := by
  have hcond : ¬(box.size.x = 0 ∨ box.size.y = 0 ∨ box.size.z = 0) := by tauto
  unfold placeBox placeBoxHollow placeBoxWireframe
  rw [if_neg hcond, if_neg hcond, if_neg hcond]
  exact ⟨rfl, rfl, rfl, by simp [placeCuboid]⟩

/-- Witness for C9 at a concrete box of size `(1, -2, 3)`. -/
theorem negative_size_box_delegates_witness :
    (Box.mk ⟨0, 0, 0⟩ ⟨1, -2, 3⟩).size.x ≠ 0 ∧ (Box.mk ⟨0, 0, 0⟩ ⟨1, -2, 3⟩).size.y ≠ 0 ∧
    (Box.mk ⟨0, 0, 0⟩ ⟨1, -2, 3⟩).size.z ≠ 0 ∧
    ((Box.mk ⟨0, 0, 0⟩ ⟨1, -2, 3⟩).size.x < 0 ∨ (Box.mk ⟨0, 0, 0⟩ ⟨1, -2, 3⟩).size.y < 0 ∨
      (Box.mk ⟨0, 0, 0⟩ ⟨1, -2, 3⟩).size.z < 0) ∧
    placeBox ⟨⟨⟨0, 0, 0⟩, 0, (false, false, false)⟩⟩ (Box.mk ⟨0, 0, 0⟩ ⟨1, -2, 3⟩)
        ⟨"minecraft:stone", 0, (false, false, false)⟩ none
      = placeCuboid ⟨⟨⟨0, 0, 0⟩, 0, (false, false, false)⟩⟩ (Box.mk ⟨0, 0, 0⟩ ⟨1, -2, 3⟩).begin
        ((Box.mk ⟨0, 0, 0⟩ ⟨1, -2, 3⟩).end' - (1 : Int)) ⟨"minecraft:stone", 0, (false, false, false)⟩ none ∧
    placeBox ⟨⟨⟨0, 0, 0⟩, 0, (false, false, false)⟩⟩ (Box.mk ⟨0, 0, 0⟩ ⟨1, -2, 3⟩)
      ⟨"minecraft:stone", 0, (false, false, false)⟩ none ≠ [] := by
  have h := negative_size_box_delegates ⟨⟨⟨0, 0, 0⟩, 0, (false, false, false)⟩⟩
    (Box.mk ⟨0, 0, 0⟩ ⟨1, -2, 3⟩) ⟨"minecraft:stone", 0, (false, false, false)⟩ none
    (by decide) (by decide) (by decide) (Or.inr (Or.inl (by decide)))
  exact ⟨by decide, by decide, by decide, Or.inr (Or.inl (by decide)), h.1, h.2.2.2⟩

/-- C2: `placeCuboid` requests placement of exactly the integer points of the
closed axis-aligned box spanning the two transformed corners, and swapping the
corner arguments yields the identical placement trace. -/
theorem placeCuboid_spec (e : Editor) (first last : ivec3) (blk : Block) (r : Option Replace) :
    (∀ p : ivec3,
      (∃ c ∈ placeCuboid e first last blk r, p ∈ c.points) ↔
        (min (e.transform * first).x (e.transform * last).x ≤ p.x ∧
         p.x ≤ max (e.transform * first).x (e.transform * last).x ∧
         min (e.transform * first).y (e.transform * last).y ≤ p.y ∧
         p.y ≤ max (e.transform * first).y (e.transform * last).y ∧
         min (e.transform * first).z (e.transform * last).z ≤ p.z ∧
         p.z ≤ max (e.transform * first).z (e.transform * last).z)) ∧
    placeCuboid e first last blk r = placeCuboid e last first blk r := by
  constructor
  · intro p
    rw [show placeCuboid e first last blk r
        = [.placeBlockGlobal (.sequence (Box.between (e.transform * first) (e.transform * last)).inner)
            (blk.transformed e.transform.rotation e.transform.flip) r] from rfl]
    simp only [List.mem_singleton, exists_eq_left, Call.points]
    exact mem_between_inner_iff _ _ p
  · show [Call.placeBlockGlobal
        (.sequence (Box.between (e.transform * first) (e.transform * last)).inner)
        (blk.transformed e.transform.rotation e.transform.flip) r]
      = [Call.placeBlockGlobal
        (.sequence (Box.between (e.transform * last) (e.transform * first)).inner)
        (blk.transformed e.transform.rotation e.transform.flip) r]
    rw [Box.between_comm (e.transform * first) (e.transform * last)]

/-- C3: `placeCheckeredBox` selects `block1` at a placed position exactly when
the component sum of the box-local coordinate is even (and `block2` otherwise),
and the pattern phase is anchored to the box-local origin: translating the box
offset by an even vector translates the whole trace, leaving the local pattern
identical. -/
theorem placeCheckeredBox_pattern (e : Editor) (o s t : ivec3) (b1 b2 : Block)
    (r : Option Replace) (hne : b1 ≠ b2)
    (ht : t.x % 2 = 0 ∧ t.y % 2 = 0 ∧ t.z % 2 = 0) :
    (∀ pos ∈ (Box.mk ⟨0, 0, 0⟩ s).inner,
      (Call.placeBlock (.single (o + pos)) b1 r ∈ placeCheckeredBox e (Box.mk o s) b1 b2 r ↔
        pos.sum % 2 = 0) ∧
      (Call.placeBlock (.single (o + pos)) b2 r ∈ placeCheckeredBox e (Box.mk o s) b1 b2 r ↔
        ¬pos.sum % 2 = 0)) ∧
    placeCheckeredBox e (Box.mk (o + t) s) b1 b2 r
      = (placeCheckeredBox e (Box.mk o s) b1 b2 r).map (Call.translate t) := by
  constructor
  · intro pos hpos
    constructor
    · constructor
      · intro hmem
        simp only [placeCheckeredBox, List.mem_map, Call.placeBlock.injEq,
          PlacePos.single.injEq] at hmem
        obtain ⟨a, ha, hpt, hblk, _⟩ := hmem
        have haeq : a = pos := ivec3.add_left_cancel hpt
        rw [haeq] at hblk
        by_cases hpar : pos.sum % 2 = 0
        · exact hpar
        · rw [if_neg hpar] at hblk
          exact absurd hblk.symm hne
      · intro hpar
        simp only [placeCheckeredBox, List.mem_map]
        exact ⟨pos, hpos, by rw [if_pos hpar]⟩
    · constructor
      · intro hmem
        simp only [placeCheckeredBox, List.mem_map, Call.placeBlock.injEq,
          PlacePos.single.injEq] at hmem
        obtain ⟨a, ha, hpt, hblk, _⟩ := hmem
        have haeq : a = pos := ivec3.add_left_cancel hpt
        rw [haeq] at hblk
        intro hpar
        rw [if_pos hpar] at hblk
        exact hne hblk
      · intro hpar
        simp only [placeCheckeredBox, List.mem_map]
        exact ⟨pos, hpos, by rw [if_neg hpar]⟩
  · simp only [placeCheckeredBox, List.map_map]
    refine List.map_congr_left ?_
    intro pos _
    simp only [Function.comp_apply, Call.translate]
    rw [ivec3.add_right_comm]

/-- Witness for C3 at a concrete box, blocks and even translation vector. -/
theorem placeCheckeredBox_pattern_witness :
    (Block.mk "minecraft:gold_block" 0 (false, false, false)
      ≠ Block.mk "minecraft:iron_block" 0 (false, false, false)) ∧
    ((⟨2, 0, -4⟩ : ivec3).x % 2 = 0 ∧ (⟨2, 0, -4⟩ : ivec3).y % 2 = 0 ∧
      (⟨2, 0, -4⟩ : ivec3).z % 2 = 0) ∧
    ((∀ pos ∈ (Box.mk ⟨0, 0, 0⟩ ⟨2, 1, 1⟩).inner,
      (Call.placeBlock (.single ((⟨1, 2, 3⟩ : ivec3) + pos))
          (Block.mk "minecraft:gold_block" 0 (false, false, false)) none ∈
        placeCheckeredBox ⟨⟨⟨0, 0, 0⟩, 0, (false, false, false)⟩⟩ (Box.mk ⟨1, 2, 3⟩ ⟨2, 1, 1⟩)
          (Block.mk "minecraft:gold_block" 0 (false, false, false))
          (Block.mk "minecraft:iron_block" 0 (false, false, false)) none ↔
        pos.sum % 2 = 0) ∧
      (Call.placeBlock (.single ((⟨1, 2, 3⟩ : ivec3) + pos))
          (Block.mk "minecraft:iron_block" 0 (false, false, false)) none ∈
        placeCheckeredBox ⟨⟨⟨0, 0, 0⟩, 0, (false, false, false)⟩⟩ (Box.mk ⟨1, 2, 3⟩ ⟨2, 1, 1⟩)
          (Block.mk "minecraft:gold_block" 0 (false, false, false))
          (Block.mk "minecraft:iron_block" 0 (false, false, false)) none ↔
        ¬pos.sum % 2 = 0)) ∧
    placeCheckeredBox ⟨⟨⟨0, 0, 0⟩, 0, (false, false, false)⟩⟩
        (Box.mk ((⟨1, 2, 3⟩ : ivec3) + ⟨2, 0, -4⟩) ⟨2, 1, 1⟩)
        (Block.mk "minecraft:gold_block" 0 (false, false, false))
        (Block.mk "minecraft:iron_block" 0 (false, false, false)) none
      = (placeCheckeredBox ⟨⟨⟨0, 0, 0⟩, 0, (false, false, false)⟩⟩ (Box.mk ⟨1, 2, 3⟩ ⟨2, 1, 1⟩)
          (Block.mk "minecraft:gold_block" 0 (false, false, false))
          (Block.mk "minecraft:iron_block" 0 (false, false, false)) none).map
          (Call.translate ⟨2, 0, -4⟩)) :=
  ⟨by decide, by decide,
    placeCheckeredBox_pattern ⟨⟨⟨0, 0, 0⟩, 0, (false, false, false)⟩⟩ ⟨1, 2, 3⟩ ⟨2, 1, 1⟩
      ⟨2, 0, -4⟩ (Block.mk "minecraft:gold_block" 0 (false, false, false))
      (Block.mk "minecraft:iron_block" 0 (false, false, false)) none (by decide)
      ⟨by decide, by decide, by decide⟩⟩

theorem mapM_option_eq_map {α β : Type} (f : α → Option β) (g : α → β) :
    ∀ l : List α, (∀ x ∈ l, f x = some (g x)) → l.mapM f = some (l.map g)
  | [] => fun _ => rfl
  | a :: as => fun h => by
      rw [List.mapM_cons, h a (List.mem_cons_self a as),
        mapM_option_eq_map f g as (fun x hx => h x (List.mem_cons_of_mem a hx))]
      rfl

theorem isSome_mapM_iff {α β : Type} (f : α → Option β) (l : List α) :
    (l.mapM f).isSome ↔ ∀ x ∈ l, (f x).isSome := by
  induction l with
  | nil =>
    constructor
    · intro _ x hx
      cases hx
    · intro _
      rfl
  | cons a as ih =>
    rw [List.mapM_cons]
    cases hfa : f a with
    | none => simp [hfa]
    | some b =>
      cases hmm : as.mapM f with
      | none =>
        have hnot : ¬∀ x ∈ as, (f x).isSome := by rw [← ih, hmm]; simp
        simp [hfa, hmm, hnot]
      | some bs =>
        have has : ∀ x ∈ as, (f x).isSome := by rw [← ih, hmm]; simp
        constructor
        · intro _ x hx
          rcases List.mem_cons.mp hx with rfl | hx2
          · simp [hfa]
          · exact has x hx2
        · intro _
          rfl

theorem ivec3.get_isSome_iff (v : ivec3) : ∀ i : Nat, ((v.get i).isSome ↔ i < 3)
  | 0 => by simp [ivec3.get]
  | 1 => by simp [ivec3.get]
  | 2 => by simp [ivec3.get]
  | n + 3 => by simp [ivec3.get]

theorem ite_parity_ne {b1 b2 : Block} (hne : b1 ≠ b2) (c : Int) :
    (if (c + 1) % 2 = 0 then b1 else b2) ≠ (if c % 2 = 0 then b1 else b2) := by
  by_cases h : c % 2 = 0
  · have h1 : ¬(c + 1) % 2 = 0 := by omega
    rw [if_pos h, if_neg h1]
    exact Ne.symm hne
  · have h1 : (c + 1) % 2 = 0 := by omega
    rw [if_neg h, if_pos h1]
    exact hne

/-- C4: `placeStripedBox` selects `block1` at a placed position exactly when
the box-local coordinate along `stripeAxis` is even (and `block2` otherwise);
the local coordinate along `stripeAxis` grows by one per unit step along
`stripeAxis` (so the selected block alternates strictly) and is unchanged by a
unit step along either other axis (so the selection is constant there). -/
theorem placeStripedBox_pattern (e : Editor) (o s : ivec3) (a : Nat) (b1 b2 : Block)
    (r : Option Replace) (ha : a < 3) (hne : b1 ≠ b2) :
    ∃ tr, placeStripedBox e (Box.mk o s) a b1 b2 r = some tr ∧
      (∀ pos ∈ (Box.mk ⟨0, 0, 0⟩ s).inner, ∀ c : Int, pos.get a = some c →
        ((Call.placeBlock (.single (o + pos)) b1 r ∈ tr ↔ c % 2 = 0) ∧
         (Call.placeBlock (.single (o + pos)) b2 r ∈ tr ↔ ¬c % 2 = 0))) ∧
      (∀ pos : ivec3, ∀ c : Int, pos.get a = some c →
        (pos + unitVec a).get a = some (c + 1) ∧
        ((if (c + 1) % 2 = 0 then b1 else b2) ≠ (if c % 2 = 0 then b1 else b2)) ∧
        (∀ b : Nat, b < 3 → b ≠ a → (pos + unitVec b).get a = some c)) := by
  refine ⟨(Box.mk ⟨0, 0, 0⟩ s).inner.map fun pos =>
      Call.placeBlock (.single (o + pos)) (if (pos.get a).getD 0 % 2 = 0 then b1 else b2) r,
    ?_, ?_, ?_⟩
  · refine mapM_option_eq_map _ _ _ ?_
    intro pos _
    obtain ⟨c, hc⟩ := Option.isSome_iff_exists.mp ((ivec3.get_isSome_iff pos a).mpr ha)
    rw [hc]
    simp [Option.map_some]
  · intro pos hpos c hc
    constructor
    · constructor
      · intro hmem
        simp only [List.mem_map, Call.placeBlock.injEq, PlacePos.single.injEq] at hmem
        obtain ⟨p', hp', hpt, hblk, _⟩ := hmem
        have hp2 : p' = pos := ivec3.add_left_cancel hpt
        rw [hp2, hc] at hblk
        by_cases hpar : c % 2 = 0
        · exact hpar
        · rw [Option.getD_some, if_neg hpar] at hblk
          exact absurd hblk.symm hne
      · intro hpar
        simp only [List.mem_map]
        exact ⟨pos, hpos, by rw [hc, Option.getD_some, if_pos hpar]⟩
    · constructor
      · intro hmem
        simp only [List.mem_map, Call.placeBlock.injEq, PlacePos.single.injEq] at hmem
        obtain ⟨p', hp', hpt, hblk, _⟩ := hmem
        have hp2 : p' = pos := ivec3.add_left_cancel hpt
        rw [hp2, hc] at hblk
        intro hpar
        rw [Option.getD_some, if_pos hpar] at hblk
        exact hne hblk
      · intro hpar
        simp only [List.mem_map]
        exact ⟨pos, hpos, by rw [hc, Option.getD_some, if_neg hpar]⟩
  · intro pos c hc
    refine ⟨?_, ite_parity_ne hne c, ?_⟩
    · interval_cases a <;>
        simp_all [ivec3.get, unitVec, ivec3.add_def]
    · intro b hb hba
      interval_cases a <;> interval_cases b <;>
        simp_all [ivec3.get, unitVec, ivec3.add_def]

/-- Witness for C4 at a concrete box and stripe axis 0. -/
theorem placeStripedBox_pattern_witness :
    0 < 3 ∧
    (Block.mk "minecraft:gold_block" 0 (false, false, false)
      ≠ Block.mk "minecraft:iron_block" 0 (false, false, false)) ∧
    (∃ tr, placeStripedBox ⟨⟨⟨0, 0, 0⟩, 0, (false, false, false)⟩⟩ (Box.mk ⟨5, 6, 7⟩ ⟨2, 1, 1⟩) 0
        (Block.mk "minecraft:gold_block" 0 (false, false, false))
        (Block.mk "minecraft:iron_block" 0 (false, false, false)) none = some tr ∧
      (∀ pos ∈ (Box.mk ⟨0, 0, 0⟩ ⟨2, 1, 1⟩).inner, ∀ c : Int, pos.get 0 = some c →
        ((Call.placeBlock (.single ((⟨5, 6, 7⟩ : ivec3) + pos))
            (Block.mk "minecraft:gold_block" 0 (false, false, false)) none ∈ tr ↔ c % 2 = 0) ∧
         (Call.placeBlock (.single ((⟨5, 6, 7⟩ : ivec3) + pos))
            (Block.mk "minecraft:iron_block" 0 (false, false, false)) none ∈ tr ↔ ¬c % 2 = 0))) ∧
      (∀ pos : ivec3, ∀ c : Int, pos.get 0 = some c →
        (pos + unitVec 0).get 0 = some (c + 1) ∧
        ((if (c + 1) % 2 = 0 then Block.mk "minecraft:gold_block" 0 (false, false, false)
            else Block.mk "minecraft:iron_block" 0 (false, false, false))
          ≠ (if c % 2 = 0 then Block.mk "minecraft:gold_block" 0 (false, false, false)
            else Block.mk "minecraft:iron_block" 0 (false, false, false))) ∧
        (∀ b : Nat, b < 3 → b ≠ 0 → (pos + unitVec b).get 0 = some c))) :=
  ⟨by decide, by decide,
    placeStripedBox_pattern ⟨⟨⟨0, 0, 0⟩, 0, (false, false, false)⟩⟩ ⟨5, 6, 7⟩ ⟨2, 1, 1⟩ 0
      (Block.mk "minecraft:gold_block" 0 (false, false, false))
      (Block.mk "minecraft:iron_block" 0 (false, false, false)) none (by decide) (by decide)⟩

/-- C5: the layer raises no error of its own and its only conditional logic is
the zero-size guard: the box wrappers make no call exactly under the guard
condition; `placeStripedBox` succeeds exactly when its collaborator component
access does (axis valid, or never reached because the box is empty), so an
invalid axis is deferred, not checked here; and `placeLineSequence` /
`placeCylinder` unconditionally make exactly one collaborator call whatever the
point sequence or dimensions are (malformed input validation is deferred). -/
theorem layer_error_policy (e : Editor) (box : Box) (blk b1 b2 : Block) (r : Option Replace)
    (a : Nat) (pts : List ivec3) (closed : Bool) (bc : ivec3) (d : Diameters) (len : Int)
    (tube hollow : Bool) :
    (placeBox e box blk r = [] ↔ (box.size.x = 0 ∨ box.size.y = 0 ∨ box.size.z = 0)) ∧
    (placeBoxHollow e box blk r = [] ↔ (box.size.x = 0 ∨ box.size.y = 0 ∨ box.size.z = 0)) ∧
    (placeBoxWireframe e box blk r = [] ↔ (box.size.x = 0 ∨ box.size.y = 0 ∨ box.size.z = 0)) ∧
    ((placeStripedBox e box a b1 b2 r).isSome ↔
      (a < 3 ∨ (Box.mk ⟨0, 0, 0⟩ box.size).inner = [])) ∧
    (placeLineSequence e pts blk closed r).length = 1 ∧
    (placeCylinder e bc d len blk a tube hollow r).length = 1 := by
  refine ⟨?_, ?_, ?_, ?_, rfl, rfl⟩
  · unfold placeBox
    split
    · simp_all
    · simp_all [placeCuboid]
  · unfold placeBoxHollow
    split
    · simp_all
    · simp_all [placeCuboidHollow]
  · unfold placeBoxWireframe
    split
    · simp_all
    · simp_all [placeCuboidWireframe]
  · rw [placeStripedBox, isSome_mapM_iff]
    constructor
    · intro h
      by_cases hax : a < 3
      · exact Or.inl hax
      · refine Or.inr (List.eq_nil_iff_forall_not_mem.mpr fun pos hpos => ?_)
        have := h pos hpos
        rw [Option.isSome_map'] at this
        exact hax ((ivec3.get_isSome_iff pos a).mp this)
    · rintro (hax | hemp)
      · intro pos _
        rw [Option.isSome_map']
        exact (ivec3.get_isSome_iff pos a).mpr hax
      · intro pos hpos
        rw [hemp] at hpos
        cases hpos

/-- C6: `placeLineSequence` and `placeCylinder` pass their input points
untransformed to the transforming `placeBlock` operation (so the editor
transforms each point per call, as the effective point computation shows),
while `placeCuboid`, `placeLine` and `placeFittingCylinder` pre-transform
their key points and call `placeBlockGlobal`. -/
theorem transform_asymmetry (e : Editor) (pts : List ivec3) (blk : Block) (closed : Bool)
    (r : Option Replace) (bc : ivec3) (d : Diameters) (len : Int) (axis : Nat)
    (tube hollow : Bool) (f l : ivec3) (w : Int) (c1 c2 : ivec3) :
    placeLineSequence e pts blk closed r
      = [.placeBlock (.sequence (lineSequence3D pts closed)) blk r] ∧
    (placeLineSequence e pts blk closed r).flatMap (Call.effectivePoints e.transform)
      = (lineSequence3D pts closed).map e.transform.apply ∧
    placeCylinder e bc d len blk axis tube hollow r
      = [.placeBlock (.sequence (cylinder bc d len axis tube hollow)) blk r] ∧
    (placeCylinder e bc d len blk axis tube hollow r).flatMap (Call.effectivePoints e.transform)
      = (cylinder bc d len axis tube hollow).map e.transform.apply ∧
    placeCuboid e f l blk r
      = [.placeBlockGlobal (.sequence (Box.between (e.transform * f) (e.transform * l)).inner)
          (blk.transformed e.transform.rotation e.transform.flip) r] ∧
    placeLine e f l blk w r
      = [.placeBlockGlobal (.sequence (line3D (e.transform * f) (e.transform * l) w))
          (blk.transformed e.transform.rotation e.transform.flip) r] ∧
    placeFittingCylinder e c1 c2 blk axis tube hollow r
      = [.placeBlockGlobal (.sequence (fittingCylinder (e.transform * c1) (e.transform * c2) axis tube hollow))
          (blk.transformed e.transform.rotation e.transform.flip) r] := by
  refine ⟨rfl, ?_, rfl, ?_, rfl, rfl, rfl⟩ <;>
    simp [placeLineSequence, placeCylinder, Call.effectivePoints]

/-- C8: on the point sequence `[P0, P1, P2]`, `placeLineSequence` with
`closed = true` requests exactly the segments `P0→P1`, `P1→P2` and the closing
segment `P2→P0`; with `closed = false` the closing segment is omitted. -/
theorem placeLineSequence_segments (e : Editor) (P0 P1 P2 : ivec3) (blk : Block)
    (r : Option Replace) :
    placeLineSequence e [P0, P1, P2] blk true r
      = [.placeBlock (.sequence (line3D P0 P1 1 ++ line3D P1 P2 1 ++ line3D P2 P0 1)) blk r] ∧
    placeLineSequence e [P0, P1, P2] blk false r
      = [.placeBlock (.sequence (line3D P0 P1 1 ++ line3D P1 P2 1)) blk r] := by
  constructor <;> simp [placeLineSequence, lineSequence3D, List.getLast]

/-- C10: `placeLineSequence` and `placeCylinder` pass the block argument to the
editor unmodified, while `placeCuboid`, `placeCuboidHollow`,
`placeCuboidWireframe`, `placeLine` and `placeFittingCylinder` replace it with
`block.transformed(editor.transform.rotation, editor.transform.flip)`. -/
theorem block_transform_delegation (e : Editor) (pts : List ivec3) (blk : Block) (closed : Bool)
    (r : Option Replace) (bc : ivec3) (d : Diameters) (len : Int) (axis : Nat)
    (tube hollow : Bool) (f l : ivec3) (w : Int) (c1 c2 : ivec3) :
    (placeLineSequence e pts blk closed r).map Call.block = [blk] ∧
    (placeCylinder e bc d len blk axis tube hollow r).map Call.block = [blk] ∧
    (placeCuboid e f l blk r).map Call.block
      = [blk.transformed e.transform.rotation e.transform.flip] ∧
    (placeCuboidHollow e f l blk r).map Call.block
      = [blk.transformed e.transform.rotation e.transform.flip] ∧
    (placeCuboidWireframe e f l blk r).map Call.block
      = [blk.transformed e.transform.rotation e.transform.flip] ∧
    (placeLine e f l blk w r).map Call.block
      = [blk.transformed e.transform.rotation e.transform.flip] ∧
    (placeFittingCylinder e c1 c2 blk axis tube hollow r).map Call.block
      = [blk.transformed e.transform.rotation e.transform.flip] :=
  ⟨rfl, rfl, rfl, rfl, rfl, rfl, rfl⟩

theorem mem_fittingEllipse_iff (sx sz i j : Nat) :
    (i, j) ∈ fittingEllipse sx sz ↔ i < sx ∧ j < sz ∧ inFittingEllipse sx sz i j = true := by
  simp only [fittingEllipse, List.mem_flatMap, List.mem_filterMap, List.mem_range]
  constructor
  · rintro ⟨i', hi', j', hj', hopt⟩
    by_cases hc : inFittingEllipse sx sz i' j' = true
    · rw [if_pos hc] at hopt
      simp only [Option.some.injEq, Prod.mk.injEq] at hopt
      obtain ⟨rfl, rfl⟩ := hopt
      exact ⟨hi', hj', hc⟩
    · rw [if_neg hc] at hopt
      cases hopt
  · rintro ⟨hi, hj, hc⟩
    exact ⟨i, hi, j, hj, by rw [if_pos hc]⟩

theorem fittingEllipse_poles (sx sz : Nat) (hx : 1 ≤ sx) (hz : 1 ≤ sz) :
    (0, (sz - 1) / 2) ∈ fittingEllipse sx sz ∧
    (sx - 1, (sz - 1) / 2) ∈ fittingEllipse sx sz ∧
    ((sx - 1) / 2, 0) ∈ fittingEllipse sx sz ∧
    ((sx - 1) / 2, sz - 1) ∈ fittingEllipse sx sz := by
  refine ⟨(mem_fittingEllipse_iff ..).mpr ⟨by omega, by omega, ?_⟩,
          (mem_fittingEllipse_iff ..).mpr ⟨by omega, by omega, ?_⟩,
          (mem_fittingEllipse_iff ..).mpr ⟨by omega, by omega, ?_⟩,
          (mem_fittingEllipse_iff ..).mpr ⟨by omega, by omega, ?_⟩⟩ <;>
    simp [inFittingEllipse]

theorem ellipseOutline_subset (sx sz : Nat) (ij : Nat × Nat)
    (h : ij ∈ ellipseOutline sx sz) : ij ∈ fittingEllipse sx sz :=
  (List.mem_filter.mp h).1

theorem ellipseOutline_poles (sx sz : Nat) (hx : 1 ≤ sx) (hz : 1 ≤ sz) :
    (0, (sz - 1) / 2) ∈ ellipseOutline sx sz ∧
    (sx - 1, (sz - 1) / 2) ∈ ellipseOutline sx sz ∧
    ((sx - 1) / 2, 0) ∈ ellipseOutline sx sz ∧
    ((sx - 1) / 2, sz - 1) ∈ ellipseOutline sx sz := by
  obtain ⟨h1, h2, h3, h4⟩ := fittingEllipse_poles sx sz hx hz
  refine ⟨List.mem_filter.mpr ⟨h1, ?_⟩, List.mem_filter.mpr ⟨h2, ?_⟩,
          List.mem_filter.mpr ⟨h3, ?_⟩, List.mem_filter.mpr ⟨h4, ?_⟩⟩ <;>
    simp <;> omega

theorem cylinderLayer_subset (sx sz : Nat) (tube hollow : Bool) (t len : Nat) (ij : Nat × Nat)
    (h : ij ∈ cylinderLayer sx sz tube hollow t len) :
    ij.1 < sx ∧ ij.2 < sz := by
  have hmem : ij ∈ fittingEllipse sx sz := by
    unfold cylinderLayer at h
    split_ifs at h
    · exact ellipseOutline_subset sx sz ij h
    · exact ellipseOutline_subset sx sz ij h
    · exact h
  obtain ⟨i, j⟩ := ij
  have := (mem_fittingEllipse_iff sx sz i j).mp hmem
  exact ⟨this.1, this.2.1⟩

theorem cylinderLayer_poles (sx sz : Nat) (tube hollow : Bool) (t len : Nat)
    (hx : 1 ≤ sx) (hz : 1 ≤ sz) :
    (0, (sz - 1) / 2) ∈ cylinderLayer sx sz tube hollow t len ∧
    (sx - 1, (sz - 1) / 2) ∈ cylinderLayer sx sz tube hollow t len ∧
    ((sx - 1) / 2, 0) ∈ cylinderLayer sx sz tube hollow t len ∧
    ((sx - 1) / 2, sz - 1) ∈ cylinderLayer sx sz tube hollow t len := by
  unfold cylinderLayer
  split_ifs
  · exact ellipseOutline_poles sx sz hx hz
  · exact ellipseOutline_poles sx sz hx hz
  · exact fittingEllipse_poles sx sz hx hz

theorem int_min?_eq_some (l : List Int) (a : Int) :
    l.min? = some a ↔ a ∈ l ∧ ∀ b ∈ l, a ≤ b := by
  haveI : Std.Antisymm ((· : Int) ≤ ·) := ⟨fun h h2 => Int.le_antisymm h h2⟩
  exact List.min?_eq_some_iff Int.le_refl min_choice fun _ _ _ => le_min_iff

theorem int_max?_eq_some (l : List Int) (a : Int) :
    l.max? = some a ↔ a ∈ l ∧ ∀ b ∈ l, b ≤ a := by
  haveI : Std.Antisymm ((· : Int) ≤ ·) := ⟨fun h h2 => Int.le_antisymm h h2⟩
  exact List.max?_eq_some_iff Int.le_refl max_choice fun _ _ _ => max_le_iff

theorem boundingBox_eq_of (ps : List ivec3) (b : Box)
    (hub : ∀ p ∈ ps,
      b.offset.x ≤ p.x ∧ p.x ≤ b.offset.x + b.size.x - 1 ∧
      b.offset.y ≤ p.y ∧ p.y ≤ b.offset.y + b.size.y - 1 ∧
      b.offset.z ≤ p.z ∧ p.z ≤ b.offset.z + b.size.z - 1)
    (hx0 : ∃ p ∈ ps, p.x = b.offset.x) (hx1 : ∃ p ∈ ps, p.x = b.offset.x + b.size.x - 1)
    (hy0 : ∃ p ∈ ps, p.y = b.offset.y) (hy1 : ∃ p ∈ ps, p.y = b.offset.y + b.size.y - 1)
    (hz0 : ∃ p ∈ ps, p.z = b.offset.z) (hz1 : ∃ p ∈ ps, p.z = b.offset.z + b.size.z - 1) :
    boundingBox ps = some b := by
  have hminx : (ps.map ivec3.x).min? = some b.offset.x := by
    rw [int_min?_eq_some]
    obtain ⟨p, hp, hpe⟩ := hx0
    exact ⟨List.mem_map.mpr ⟨p, hp, hpe⟩,
      fun v hv => by obtain ⟨q, hq, rfl⟩ := List.mem_map.mp hv; exact (hub q hq).1⟩
  have hminy : (ps.map ivec3.y).min? = some b.offset.y := by
    rw [int_min?_eq_some]
    obtain ⟨p, hp, hpe⟩ := hy0
    exact ⟨List.mem_map.mpr ⟨p, hp, hpe⟩,
      fun v hv => by obtain ⟨q, hq, rfl⟩ := List.mem_map.mp hv; exact (hub q hq).2.2.1⟩
  have hminz : (ps.map ivec3.z).min? = some b.offset.z := by
    rw [int_min?_eq_some]
    obtain ⟨p, hp, hpe⟩ := hz0
    exact ⟨List.mem_map.mpr ⟨p, hp, hpe⟩,
      fun v hv => by obtain ⟨q, hq, rfl⟩ := List.mem_map.mp hv; exact (hub q hq).2.2.2.2.1⟩
  have hmaxx : (ps.map ivec3.x).max? = some (b.offset.x + b.size.x - 1) := by
    rw [int_max?_eq_some]
    obtain ⟨p, hp, hpe⟩ := hx1
    exact ⟨List.mem_map.mpr ⟨p, hp, hpe⟩,
      fun v hv => by obtain ⟨q, hq, rfl⟩ := List.mem_map.mp hv; exact (hub q hq).2.1⟩
  have hmaxy : (ps.map ivec3.y).max? = some (b.offset.y + b.size.y - 1) := by
    rw [int_max?_eq_some]
    obtain ⟨p, hp, hpe⟩ := hy1
    exact ⟨List.mem_map.mpr ⟨p, hp, hpe⟩,
      fun v hv => by obtain ⟨q, hq, rfl⟩ := List.mem_map.mp hv; exact (hub q hq).2.2.2.1⟩
  have hmaxz : (ps.map ivec3.z).max? = some (b.offset.z + b.size.z - 1) := by
    rw [int_max?_eq_some]
    obtain ⟨p, hp, hpe⟩ := hz1
    exact ⟨List.mem_map.mpr ⟨p, hp, hpe⟩,
      fun v hv => by obtain ⟨q, hq, rfl⟩ := List.mem_map.mp hv; exact (hub q hq).2.2.2.2.2⟩
  rw [boundingBox, hminx, hminy, hminz, hmaxx, hmaxy, hmaxz]
  obtain ⟨⟨ox, oy, oz⟩, ⟨sx, sy, sz⟩⟩ := b
  simp only [Option.some.injEq, Box.mk.injEq, ivec3.mk.injEq]
  refine ⟨trivial, ?_, ?_, ?_⟩ <;> omega

theorem mem_layered_iff (off : ivec3) (len s1 s2 : Nat) (axis : Nat) (tube hollow : Bool)
    (p : ivec3) :
    (p ∈ (List.range len).flatMap fun t =>
        (cylinderLayer s1 s2 tube hollow t len).map fun ij => off + mkAxisPoint axis t ij.1 ij.2)
      ↔ ∃ t, t < len ∧ ∃ ij, ij ∈ cylinderLayer s1 s2 tube hollow t len ∧
          off + mkAxisPoint axis (t : Int) (ij.1 : Int) (ij.2 : Int) = p := by
  simp [List.mem_flatMap, List.mem_map, List.mem_range]

theorem boundingBox_layered (off : ivec3) (sA s1v s2v : Int) (axis : Nat) (ha : axis < 3)
    (h1 : 1 ≤ sA) (h2 : 1 ≤ s1v) (h3 : 1 ≤ s2v) (tube hollow : Bool) :
    boundingBox ((List.range sA.toNat).flatMap fun t =>
        (cylinderLayer s1v.toNat s2v.toNat tube hollow t sA.toNat).map fun ij =>
          off + mkAxisPoint axis t ij.1 ij.2)
      = some ⟨off, mkAxisPoint axis sA s1v s2v⟩ := by
  have hL : 1 ≤ sA.toNat := by omega
  have h1n : 1 ≤ s1v.toNat := by omega
  have h2n : 1 ≤ s2v.toNat := by omega
  obtain ⟨q1, q2, q3, q4⟩ :=
    cylinderLayer_poles s1v.toNat s2v.toNat tube hollow 0 sA.toNat h1n h2n
  obtain ⟨w1, w2, w3, w4⟩ :=
    cylinderLayer_poles s1v.toNat s2v.toNat tube hollow (sA.toNat - 1) sA.toNat h1n h2n
  interval_cases axis
  · apply boundingBox_eq_of
    · intro p hp
      obtain ⟨t, ht, ij, hij, rfl⟩ := (mem_layered_iff ..).mp hp
      obtain ⟨hi, hj⟩ := cylinderLayer_subset _ _ _ _ _ _ _ hij
      simp only [mkAxisPoint, ivec3.add_def]
      omega
    · exact ⟨_, (mem_layered_iff ..).mpr ⟨0, by omega, _, q1, rfl⟩,
        by simp [mkAxisPoint, ivec3.add_def]⟩
    · exact ⟨_, (mem_layered_iff ..).mpr ⟨sA.toNat - 1, by omega, _, w1, rfl⟩,
        by simp [mkAxisPoint, ivec3.add_def]; omega⟩
    · exact ⟨_, (mem_layered_iff ..).mpr ⟨0, by omega, _, q1, rfl⟩,
        by simp [mkAxisPoint, ivec3.add_def]⟩
    · exact ⟨_, (mem_layered_iff ..).mpr ⟨0, by omega, _, q2, rfl⟩,
        by simp [mkAxisPoint, ivec3.add_def]; omega⟩
    · exact ⟨_, (mem_layered_iff ..).mpr ⟨0, by omega, _, q3, rfl⟩,
        by simp [mkAxisPoint, ivec3.add_def]⟩
    · exact ⟨_, (mem_layered_iff ..).mpr ⟨0, by omega, _, q4, rfl⟩,
        by simp [mkAxisPoint, ivec3.add_def]; omega⟩
  · apply boundingBox_eq_of
    · intro p hp
      obtain ⟨t, ht, ij, hij, rfl⟩ := (mem_layered_iff ..).mp hp
      obtain ⟨hi, hj⟩ := cylinderLayer_subset _ _ _ _ _ _ _ hij
      simp only [mkAxisPoint, ivec3.add_def]
      omega
    · exact ⟨_, (mem_layered_iff ..).mpr ⟨0, by omega, _, q1, rfl⟩,
        by simp [mkAxisPoint, ivec3.add_def]⟩
    · exact ⟨_, (mem_layered_iff ..).mpr ⟨0, by omega, _, q2, rfl⟩,
        by simp [mkAxisPoint, ivec3.add_def]; omega⟩
    · exact ⟨_, (mem_layered_iff ..).mpr ⟨0, by omega, _, q1, rfl⟩,
        by simp [mkAxisPoint, ivec3.add_def]⟩
    · exact ⟨_, (mem_layered_iff ..).mpr ⟨sA.toNat - 1, by omega, _, w1, rfl⟩,
        by simp [mkAxisPoint, ivec3.add_def]; omega⟩
    · exact ⟨_, (mem_layered_iff ..).mpr ⟨0, by omega, _, q3, rfl⟩,
        by simp [mkAxisPoint, ivec3.add_def]⟩
    · exact ⟨_, (mem_layered_iff ..).mpr ⟨0, by omega, _, q4, rfl⟩,
        by simp [mkAxisPoint, ivec3.add_def]; omega⟩
  · apply boundingBox_eq_of
    · intro p hp
      obtain ⟨t, ht, ij, hij, rfl⟩ := (mem_layered_iff ..).mp hp
      obtain ⟨hi, hj⟩ := cylinderLayer_subset _ _ _ _ _ _ _ hij
      simp only [mkAxisPoint, ivec3.add_def]
      omega
    · exact ⟨_, (mem_layered_iff ..).mpr ⟨0, by omega, _, q1, rfl⟩,
        by simp [mkAxisPoint, ivec3.add_def]⟩
    · exact ⟨_, (mem_layered_iff ..).mpr ⟨0, by omega, _, q2, rfl⟩,
        by simp [mkAxisPoint, ivec3.add_def]; omega⟩
    · exact ⟨_, (mem_layered_iff ..).mpr ⟨0, by omega, _, q3, rfl⟩,
        by simp [mkAxisPoint, ivec3.add_def]⟩
    · exact ⟨_, (mem_layered_iff ..).mpr ⟨0, by omega, _, q4, rfl⟩,
        by simp [mkAxisPoint, ivec3.add_def]; omega⟩
    · exact ⟨_, (mem_layered_iff ..).mpr ⟨0, by omega, _, q1, rfl⟩,
        by simp [mkAxisPoint, ivec3.add_def]⟩
    · exact ⟨_, (mem_layered_iff ..).mpr ⟨sA.toNat - 1, by omega, _, w1, rfl⟩,
        by simp [mkAxisPoint, ivec3.add_def]; omega⟩

theorem mkAxisPoint_reassemble (axis : Nat) (ha : axis < 3) (s : ivec3) :
    mkAxisPoint axis (axisSize axis s) (perpSizes axis s).1 (perpSizes axis s).2 = s := by
  interval_cases axis <;> rfl

/-- C7: `placeFittingCylinder` pre-transforms both corners and the block
through the editor's transform before generating the point-set, and the
generated cylinder's bounding box is exactly `Box.between(corner1, corner2)`:
the cylinder fills the whole region between the corners. -/
theorem placeFittingCylinder_spec (e : Editor) (c1 c2 : ivec3) (blk : Block) (axis : Nat)
    (tube hollow : Bool) (r : Option Replace) (ha : axis < 3) :
    placeFittingCylinder e c1 c2 blk axis tube hollow r
      = [.placeBlockGlobal
          (.sequence (fittingCylinder (e.transform * c1) (e.transform * c2) axis tube hollow))
          (blk.transformed e.transform.rotation e.transform.flip) r] ∧
    boundingBox (fittingCylinder c1 c2 axis tube hollow) = some (Box.between c1 c2) := by
  refine ⟨rfl, ?_⟩
  have hdef : fittingCylinder c1 c2 axis tube hollow
      = (List.range ((axisSize axis (Box.between c1 c2).size).toNat)).flatMap fun t =>
          (cylinderLayer ((perpSizes axis (Box.between c1 c2).size).1.toNat)
            ((perpSizes axis (Box.between c1 c2).size).2.toNat) tube hollow t
            ((axisSize axis (Box.between c1 c2).size).toNat)).map fun ij =>
            (Box.between c1 c2).offset + mkAxisPoint axis t ij.1 ij.2 := by
    unfold fittingCylinder
    rw [if_pos ha]
  have h1 : 1 ≤ axisSize axis (Box.between c1 c2).size := by
    interval_cases axis <;> simp only [axisSize, Box.between] <;> omega
  have h2 : 1 ≤ (perpSizes axis (Box.between c1 c2).size).1 := by
    interval_cases axis <;> simp only [perpSizes, Box.between] <;> omega
  have h3 : 1 ≤ (perpSizes axis (Box.between c1 c2).size).2 := by
    interval_cases axis <;> simp only [perpSizes, Box.between] <;> omega
  rw [hdef, boundingBox_layered _ _ _ _ axis ha h1 h2 h3 tube hollow,
    mkAxisPoint_reassemble axis ha]

/-- Witness for C7 at concrete corners `(0,0,0)` and `(2,3,1)`, axis 1. -/
theorem placeFittingCylinder_spec_witness :
    1 < 3 ∧
    placeFittingCylinder ⟨⟨⟨0, 0, 0⟩, 0, (false, false, false)⟩⟩ ⟨0, 0, 0⟩ ⟨2, 3, 1⟩
        ⟨"minecraft:stone", 0, (false, false, false)⟩ 1 false false none
      = [.placeBlockGlobal
          (.sequence (fittingCylinder
            ((⟨⟨0, 0, 0⟩, 0, (false, false, false)⟩ : Transform) * (⟨0, 0, 0⟩ : ivec3))
            ((⟨⟨0, 0, 0⟩, 0, (false, false, false)⟩ : Transform) * (⟨2, 3, 1⟩ : ivec3)) 1 false false))
          ((⟨"minecraft:stone", 0, (false, false, false)⟩ : Block).transformed 0 (false, false, false))
          none] ∧
    boundingBox (fittingCylinder ⟨0, 0, 0⟩ ⟨2, 3, 1⟩ 1 false false)
      = some (Box.between ⟨0, 0, 0⟩ ⟨2, 3, 1⟩) := by
  have h := placeFittingCylinder_spec ⟨⟨⟨0, 0, 0⟩, 0, (false, false, false)⟩⟩ ⟨0, 0, 0⟩ ⟨2, 3, 1⟩
    ⟨"minecraft:stone", 0, (false, false, false)⟩ 1 false false none (by decide)
  exact ⟨by decide, h.1, h.2⟩
